import Mathlib

/-!
Shallow embedding of the three utility scripts of the `biscuit` repository:

* `src/biscuit/src/kernel/stamp.py` — boot-sector finisher (pad to 10*512
  bytes, then check the `0x55 0xaa` signature at offsets 510/511);
* `src/biscuit/scripts/xxd.py` — minimal `xxd -i` replacement emitting a C
  byte array;
* `src/mem_analyze.py` — `/proc/meminfo` field reporter.

Files are modelled as lists of byte values (`List Nat`, each element the
integer value of one byte); text is modelled as `String` or `List Char`.
-/

namespace Biscuit

/-! ## stamp.py -/

/-- `numblocks = 10` from stamp.py. -/
def numblocks : Nat := 10

/-- The block size, 512 bytes, as used in `numblocks*512` and `sz/512`. -/
def blockSize : Nat := 512

/-- The block count reported in stamp.py's oversize error message:
Python computes `sb = sz/512` (float division) and `sb += 1` when
`sz % 512 != 0`, then renders it with `%d`, which truncates toward zero.
For natural `sz` this truncation equals `sz / 512 + (1 if sz % 512 != 0)`. -/
def stampReportedBlocks (sz : Nat) : Nat :=
  sz / blockSize + (if sz % blockSize ≠ 0 then 1 else 0)

/-- The oversize error message of stamp.py:
`'boot sector is bigger than numblocks (is %d, should be %d)' % (numblocks, sb)`. -/
def stampErrMsg (sz : Nat) : String :=
  "boot sector is bigger than numblocks (is " ++ toString numblocks ++
    ", should be " ++ toString (stampReportedBlocks sz) ++ ")"

/-- The signature error message of stamp.py. -/
def sigErrMsg : String := "sig is wrong! fix damn text ordering somehow"

instance : DecidableEq (Except String Unit) := fun a b =>
  match a, b with
  | .error s, .error t => decidable_of_iff (s = t) (by simp)
  | .error _, .ok _ => isFalse (by simp)
  | .ok _, .error _ => isFalse (by simp)
  | .ok _, .ok _ => isTrue (by rfl)

/-- Outcome of one run of stamp.py: the file contents on disk when the
process stops, and whether it terminated normally (`.ok ()`) or raised a
`ValueError` with the given message. -/
structure StampOutcome where
  fileAfter : List Nat
  result : Except String Unit
deriving DecidableEq, Repr

/-- stamp.py on a file with contents `file`:
`sz = os.path.getsize(fn)`; `left = numblocks*512 - sz` (a Python int,
modelled as `Int`); if `left < 0` raise the oversize `ValueError` (the file
is untouched); otherwise append `left` zero bytes (`f.write(b"\x00" * left)`),
re-read the first 512 bytes (`d = f.read(512)`) and raise the signature
`ValueError` unless `d[510] == 0x55 and d[511] == 0xaa`. -/
def stamp (file : List Nat) : StampOutcome :=
  let sz := file.length
  let left : Int := (numblocks * blockSize : Nat) - (sz : Int)
  if left < 0 then
    ⟨file, .error (stampErrMsg sz)⟩
  else
    let padded := file ++ List.replicate left.toNat 0
    let d := padded.take blockSize
    if d.getD 510 0 ≠ 0x55 ∨ d.getD 511 0 ≠ 0xaa then
      ⟨padded, .error sigErrMsg⟩
    else
      ⟨padded, .ok ()⟩

/-- The padded file contents: the original bytes followed by zero bytes up
to `numblocks*512`.  This is the value stamp.py's append loop produces when
`left ≥ 0`. -/
def pad (file : List Nat) : List Nat :=
  file ++ List.replicate (numblocks * blockSize - file.length) 0

/-- A concrete 512-byte boot sector carrying the `0x55 0xaa` signature at
offsets 510/511, used as a test vector. -/
def sigFile : List Nat := List.replicate 510 0 ++ [0x55, 0xaa]

/-! ## xxd.py -/

/-- One lowercase hex digit, as produced by Python's `%x` formatting for a
digit value `n < 16`. -/
def hexDigitChar (n : Nat) : Char :=
  if n < 10 then Char.ofNat ('0'.toNat + n) else Char.ofNat ('a'.toNat + (n - 10))

/-- `f"{b:02x}"` for a byte value `b < 256`: exactly two lowercase hex
digits, zero-padded. -/
def hex2 (b : Nat) : String :=
  String.mk [hexDigitChar (b / 16), hexDigitChar (b % 16)]

/-- The lowercase hex digit alphabet. -/
def hexChars : List Char := "0123456789abcdef".toList

/-- `name = Path(path).name.replace('-', '_').replace('.', '_')` from
xxd.py.  Both `str.replace` calls have single-character patterns, so their
composition is a per-character substitution.  The directory-stripping of
`Path(path).name` is not modelled; the claims use bare file names. -/
def sanitizeName (s : String) : String :=
  String.mk (s.toList.map fun c => if c = '-' then '_' else if c = '.' then '_' else c)

/-- The text one iteration of xxd.py's loop prints for index `i` and byte
`b`: `print(f"{sep}0x{b:02x},", end=end)` where `sep` is a space exactly
when `i % 12 == 0` and `end` is a newline exactly when `(i+1) % 12 == 0`. -/
def xxdEntryString (i b : Nat) : String :=
  (if i % 12 == 0 then " " else "") ++ "0x" ++ hex2 b ++ "," ++
    (if (i + 1) % 12 == 0 then "\n" else "")

/-- The chunks printed by `for i, b in enumerate(data)`, with `i` starting
at the given counter value. -/
def xxdChunksAux : Nat → List Nat → List String
  | _, [] => []
  | i, b :: rest => xxdEntryString i b :: xxdChunksAux (i + 1) rest

/-- All chunks printed by xxd.py's loop over `data` (counter starts at 0). -/
def xxdChunks (data : List Nat) : List String := xxdChunksAux 0 data

/-- The final line `print(f"unsigned int {name}_len = {len(data)};")`. -/
def xxdLenLine (fname : String) (data : List Nat) : String :=
  "unsigned int " ++ sanitizeName fname ++ "_len = " ++ toString data.length ++ ";\n"

/-- The full standard-output text of xxd.py on file name `fname` with
contents `data`: the array header, the loop output, a closing newline when
the last line is unterminated (`if len(data) % 12 != 0: print()`), the
closing brace line, and the length line. -/
def xxdOutput (fname : String) (data : List Nat) : String :=
  "unsigned char " ++ sanitizeName fname ++ "[] = \x7b\n" ++
    String.join (xxdChunks data) ++
    (if data.length % 12 ≠ 0 then "\n" else "") ++
    "\x7d;\n" ++
    xxdLenLine fname data

/-- The usage message xxd.py writes to the standard error stream. -/
def usageMsg : String := "usage: xxd.py <file>\n"

/-- Observable outcome of one xxd.py invocation: exit code, standard error
text, standard output text, and which files were opened and read. -/
structure XxdRun where
  exitCode : Nat
  stderrText : String
  stdoutText : String
  filesRead : List String

/-- xxd.py's top level, over the argument list after the script name
(Python's `len(sys.argv) != 2` is `args.length ≠ 1`) and the file system
(`readFile` gives a file's bytes): on a wrong argument count, write the
usage message to standard error and `sys.exit(1)` without reading any
file; otherwise read the single named file and print its dump. -/
def xxdMain (args : List String) (readFile : String → List Nat) : XxdRun :=
  if args.length ≠ 1 then
    ⟨1, usageMsg, "", []⟩
  else
    let path := args.getD 0 ""
    ⟨0, "", xxdOutput path (readFile path), [path]⟩

/-! ## mem_analyze.py -/

/-- Python `str.split(sep)` for a one-character separator: splits on EVERY
occurrence of `sep` (mem_analyze.py passes no `maxsplit`), and
`"".split(sep) == [""]`.  The first group of the recursive result always
exists (the result is never empty), so prepending to it via
`headD`/`tail` is total. -/
def pySplit (sep : Char) : List Char → List (List Char)
  | [] => [[]]
  | c :: rest =>
    let r := pySplit sep rest
    if c = sep then [] :: r
    else (c :: r.headD []) :: r.tail

/-- Python `str.strip()` with no argument: remove leading and trailing
whitespace.  (`Char.isWhitespace` covers space, tab, CR and LF; Python also
strips a few rarer whitespace characters, which no claim exercises.) -/
def pyStrip (s : List Char) : List Char :=
  ((s.dropWhile Char.isWhitespace).reverse.dropWhile Char.isWhitespace).reverse

/-- One line's parse, `line.split(':')` followed by the tuple unpacking
`(key, value)` inside the dict comprehension: the unpacking succeeds
exactly when the split yields two parts; any other arity raises a
`ValueError` (modelled by `none`). -/
def parseLine (line : List Char) : Option (List Char × List Char) :=
  match pySplit ':' line with
  | [k, v] => some (k, v)
  | _ => none

/-- Sequential parse of all lines: the first line whose unpacking fails
aborts the whole comprehension with a `ValueError` (`none`). -/
def parseAll : List (List Char) → Option (List (List Char × List Char))
  | [] => some []
  | l :: rest =>
    match parseLine l, parseAll rest with
    | some kv, some m => some (kv :: m)
    | _, _ => none

/-- mem_analyze.py's parsing phase over the stripped source lines:
`meminfo = {key: value for (key, value) in [line.split(':') for line in lines]}`.
`none` models the fatal `ValueError`; on success the association list keeps
dict insertion order (later keys overwrite earlier ones at lookup). -/
def parseMeminfo (lines : List (List Char)) : Option (List (List Char × List Char)) :=
  parseAll (lines.map pyStrip)

/-- `meminfo.get(k, '')`-style lookup on the association list built in
insertion order: the LAST binding of a key wins, as in a Python dict. -/
def dictGet (m : List (List Char × List Char)) (k : List Char) : Option (List Char) :=
  (m.reverse.find? (fun p => p.1 == k)).map (fun p => p.2)

/-- The fixed, hardcoded ordered field list of the output loop. -/
def memFields : List (List Char) :=
  ["MemTotal".toList, "MemFree".toList, "Buffers".toList,
   "Cached".toList, "SwapTotal".toList, "SwapFree".toList]

/-- One printed line, `f"{field}: {meminfo.get(field, '').strip()}"`. -/
def memLine (m : List (List Char × List Char)) (f : List Char) : List Char :=
  f ++ [':', ' '] ++ pyStrip ((dictGet m f).getD [])

/-- The six lines printed by the output loop, in the fixed field order. -/
def memReport (m : List (List Char × List Char)) : List (List Char) :=
  memFields.map (memLine m)

/-- The whole script: parse the (already line-split) source text, then
print the report; `none` models a fatal error. -/
def memAnalyze (lines : List (List Char)) : Option (List (List Char)) :=
  (parseMeminfo lines).map memReport

lemma getD_take_of_lt {α : Type} (l : List α) (n i : Nat) (d : α) (h : i < n) :
    (l.take n).getD i d = l.getD i d := by
  simp [List.getD, List.getElem?_take_of_lt h]

lemma pad_length (file : List Nat) (h : file.length ≤ numblocks * blockSize) :
    (pad file).length = numblocks * blockSize := by
  simp only [pad, List.length_append, List.length_replicate]
  omega

lemma getD_pad_left (file : List Nat) (i : Nat) (h : i < file.length) :
    (pad file).getD i 0 = file.getD i 0 := by
  simp [pad, List.getD, List.getElem?_append_left h]

lemma getD_pad_right (file : List Nat) (i : Nat) (h : file.length ≤ i)
    (h2 : i < numblocks * blockSize) : (pad file).getD i 0 = 0 := by
  have h3 : i - file.length < numblocks * blockSize - file.length := by omega
  simp [pad, List.getD, List.getElem?_append_right h, List.getElem?_replicate, h3]

/-- For a file within the size bound, stamp.py takes the non-error branch of
the `left < 0` test, appends `left` zeros, and checks the signature of the
padded contents. -/
lemma stamp_of_le (file : List Nat) (h : file.length ≤ numblocks * blockSize) :
    stamp file =
      if (pad file).getD 510 0 ≠ 0x55 ∨ (pad file).getD 511 0 ≠ 0xaa then
        ⟨pad file, .error sigErrMsg⟩
      else ⟨pad file, .ok ()⟩ := by
  have h1 : ¬ (((numblocks * blockSize : Nat) : Int) - (file.length : Int) < 0) := by
    omega
  have h2 : (((numblocks * blockSize : Nat) : Int) - (file.length : Int)).toNat
      = numblocks * blockSize - file.length := Int.toNat_sub _ _
  have h510 : (510 : Nat) < blockSize := by norm_num [blockSize]
  have h511 : (511 : Nat) < blockSize := by norm_num [blockSize]
  unfold stamp
  rw [if_neg h1, h2]
  show (if ((pad file).take blockSize).getD 510 0 ≠ 0x55 ∨
          ((pad file).take blockSize).getD 511 0 ≠ 0xaa then
        (⟨pad file, .error sigErrMsg⟩ : StampOutcome)
      else ⟨pad file, .ok ()⟩) =
      if (pad file).getD 510 0 ≠ 0x55 ∨ (pad file).getD 511 0 ≠ 0xaa then
        ⟨pad file, .error sigErrMsg⟩
      else ⟨pad file, .ok ()⟩
  rw [getD_take_of_lt _ _ _ _ h510, getD_take_of_lt _ _ _ _ h511]

lemma numblocks_mul_blockSize : numblocks * blockSize = 5120 := by
  norm_num [numblocks, blockSize]

/-- If the padded contents carry the boot signature, stamp.py succeeds and
leaves the padded contents on disk. -/
lemma stamp_ok_of_sig (file : List Nat) (h : file.length ≤ numblocks * blockSize)
    (h510 : (pad file).getD 510 0 = 0x55) (h511 : (pad file).getD 511 0 = 0xaa) :
    stamp file = ⟨pad file, .ok ()⟩ := by
  rw [stamp_of_le file h]
  rw [if_neg (by push_neg; exact ⟨h510, h511⟩)]

/-- A file of exactly `numblocks*512` bytes is unchanged by padding. -/
lemma pad_of_full (file : List Nat) (h : file.length = numblocks * blockSize) :
    pad file = file := by
  unfold pad
  rw [h]
  simp

lemma sigFile_length : sigFile.length = 512 := by
  rw [sigFile, List.length_append, List.length_replicate]
  decide

lemma pad_sigFile_getD_510 : (pad sigFile).getD 510 0 = 0x55 := by
  rw [getD_pad_left sigFile 510 (by rw [sigFile_length]; norm_num)]
  have hle : (List.replicate 510 (0:Nat)).length ≤ 510 := by
    rw [List.length_replicate]
  simp only [sigFile, List.getD, List.get?_eq_getElem?]
  rw [List.getElem?_append_right hle, List.length_replicate]
  decide

lemma pad_sigFile_getD_511 : (pad sigFile).getD 511 0 = 0xaa := by
  rw [getD_pad_left sigFile 511 (by rw [sigFile_length]; norm_num)]
  have hle : (List.replicate 510 (0:Nat)).length ≤ 511 := by
    rw [List.length_replicate]
    norm_num
  simp only [sigFile, List.getD, List.get?_eq_getElem?]
  rw [List.getElem?_append_right hle, List.length_replicate]
  decide

lemma stamp_sigFile : stamp sigFile = ⟨pad sigFile, .ok ()⟩ :=
  stamp_ok_of_sig sigFile
    (by rw [sigFile_length, numblocks_mul_blockSize]; norm_num)
    pad_sigFile_getD_510 pad_sigFile_getD_511

/-- C1: for a file of size `S ≤ 5120`, after the run the file holds exactly
5120 bytes — the original `S` bytes unchanged followed by `5120 - S`
appended zero bytes — and the script terminates successfully if and only if
byte 510 of the (padded) file equals `0x55` and byte 511 equals `0xaa`. -/
theorem stamp_pads_and_checks_signature (file : List Nat) (h : file.length ≤ 5120) :
    (stamp file).fileAfter.length = 5120 ∧
    (stamp file).fileAfter = file ++ List.replicate (5120 - file.length) 0 ∧
    ((stamp file).result = .ok () ↔
      ((stamp file).fileAfter.getD 510 0 = 0x55 ∧
       (stamp file).fileAfter.getD 511 0 = 0xaa)) := by
  have h' : file.length ≤ numblocks * blockSize := by
    rw [numblocks_mul_blockSize]; exact h
  have hlen : (pad file).length = 5120 := by
    rw [pad_length file h', numblocks_mul_blockSize]
  have hpad : pad file = file ++ List.replicate (5120 - file.length) 0 := by
    unfold pad; rw [numblocks_mul_blockSize]
  rw [stamp_of_le file h']
  by_cases hc : (pad file).getD 510 0 ≠ 0x55 ∨ (pad file).getD 511 0 ≠ 0xaa
  · rw [if_pos hc]
    refine ⟨hlen, hpad, ?_⟩
    constructor
    · intro hx; exact absurd hx (by simp)
    · intro hx; exact absurd hx (by tauto)
  · rw [if_neg hc]
    push_neg at hc
    exact ⟨hlen, hpad, iff_of_true rfl hc⟩

/-- Witness for C1 at the empty file. -/
theorem stamp_pads_and_checks_signature_witness :
    ([] : List Nat).length ≤ 5120 ∧
    ((stamp ([] : List Nat)).fileAfter.length = 5120 ∧
     (stamp ([] : List Nat)).fileAfter =
       [] ++ List.replicate (5120 - ([] : List Nat).length) 0 ∧
     ((stamp ([] : List Nat)).result = .ok () ↔
       ((stamp ([] : List Nat)).fileAfter.getD 510 0 = 0x55 ∧
        (stamp ([] : List Nat)).fileAfter.getD 511 0 = 0xaa))) :=
  ⟨by simp, stamp_pads_and_checks_signature [] (by simp)⟩

/-- C3: for a file of size `S > 5120`, stamp.py raises before appending
anything: the file is unchanged, the error is the oversize message, and the
block count that message reports equals the ceiling of `S/512`. -/
theorem stamp_oversize_fails_before_write (file : List Nat) (h : 5120 < file.length) :
    (stamp file).fileAfter = file ∧
    (stamp file).result = .error (stampErrMsg file.length) ∧
    stampReportedBlocks file.length = (file.length + 511) / 512 := by
  have h1 : (((numblocks * blockSize : Nat)) : Int) - (file.length : Int) < 0 := by
    have := numblocks_mul_blockSize
    omega
  unfold stamp
  rw [if_pos h1]
  refine ⟨rfl, rfl, ?_⟩
  unfold stampReportedBlocks blockSize
  by_cases hm : file.length % 512 = 0
  · rw [if_neg (by omega)]
    omega
  · rw [if_pos hm]
    omega

/-- Witness for C3 at a 5121-byte file. -/
theorem stamp_oversize_fails_before_write_witness :
    5120 < (List.replicate 5121 (0:Nat)).length ∧
    ((stamp (List.replicate 5121 (0:Nat))).fileAfter = List.replicate 5121 (0:Nat) ∧
     (stamp (List.replicate 5121 (0:Nat))).result =
       .error (stampErrMsg (List.replicate 5121 (0:Nat)).length) ∧
     stampReportedBlocks (List.replicate 5121 (0:Nat)).length =
       ((List.replicate 5121 (0:Nat)).length + 511) / 512) :=
  ⟨by rw [List.length_replicate]; norm_num,
   stamp_oversize_fails_before_write _ (by rw [List.length_replicate]; norm_num)⟩

/-- C9: when the padded contents fail the signature check, stamp.py raises
the signature error, but the padding is not rolled back: the file on disk
remains the padded 5120-byte contents. -/
theorem stamp_sig_fail_leaves_padded (file : List Nat) (h : file.length ≤ 5120)
    (hbad : ¬ ((pad file).getD 510 0 = 0x55 ∧ (pad file).getD 511 0 = 0xaa)) :
    (stamp file).result = .error sigErrMsg ∧
    (stamp file).fileAfter = file ++ List.replicate (5120 - file.length) 0 ∧
    (stamp file).fileAfter.length = 5120 := by
  have h' : file.length ≤ numblocks * blockSize := by
    rw [numblocks_mul_blockSize]; exact h
  rw [stamp_of_le file h']
  rw [if_pos (by tauto)]
  refine ⟨rfl, ?_, ?_⟩
  · unfold pad; rw [numblocks_mul_blockSize]
  · rw [pad_length file h', numblocks_mul_blockSize]

/-- Witness for C9 at the empty file (whose padded contents are all zero,
so the signature check fails). -/
theorem stamp_sig_fail_leaves_padded_witness :
    ([] : List Nat).length ≤ 5120 ∧
    ((stamp ([] : List Nat)).result = .error sigErrMsg ∧
     (stamp ([] : List Nat)).fileAfter =
       [] ++ List.replicate (5120 - ([] : List Nat).length) 0 ∧
     (stamp ([] : List Nat)).fileAfter.length = 5120) :=
  ⟨by simp, stamp_sig_fail_leaves_padded [] (by simp)
    (fun hc => by
      have h0 : (pad ([] : List Nat)).getD 510 0 = 0 :=
        getD_pad_right [] 510 (by simp) (by rw [numblocks_mul_blockSize]; norm_num)
      rw [h0] at hc
      exact absurd hc.1 (by norm_num))⟩

/-- C10: a file of at most 510 bytes always fails the signature check after
padding, because offsets 510 and 511 of the padded file fall in the
appended zero bytes. -/
theorem stamp_small_file_always_fails (file : List Nat) (h : file.length ≤ 510) :
    (stamp file).result = .error sigErrMsg ∧
    (stamp file).fileAfter.getD 510 0 = 0 ∧
    (stamp file).fileAfter.getD 511 0 = 0 := by
  have h' : file.length ≤ numblocks * blockSize := by
    rw [numblocks_mul_blockSize]; omega
  have h510 : (pad file).getD 510 0 = 0 :=
    getD_pad_right file 510 (by omega) (by rw [numblocks_mul_blockSize]; norm_num)
  have h511 : (pad file).getD 511 0 = 0 :=
    getD_pad_right file 511 (by omega) (by rw [numblocks_mul_blockSize]; norm_num)
  rw [stamp_of_le file h']
  rw [if_pos (Or.inl (by rw [h510]; norm_num))]
  exact ⟨rfl, h510, h511⟩

/-- Witness for C10 at a 2-byte file that itself contains the signature
bytes (they end up at offsets 0/1, so the check still fails). -/
theorem stamp_small_file_always_fails_witness :
    ([0x55, 0xaa] : List Nat).length ≤ 510 ∧
    ((stamp ([0x55, 0xaa] : List Nat)).result = .error sigErrMsg ∧
     (stamp ([0x55, 0xaa] : List Nat)).fileAfter.getD 510 0 = 0 ∧
     (stamp ([0x55, 0xaa] : List Nat)).fileAfter.getD 511 0 = 0) :=
  ⟨by simp, stamp_small_file_always_fails [0x55, 0xaa] (by simp)⟩

/-- C5 counterexample: a second run after a successful run does NOT fail.
On the 512-byte signed boot sector `sigFile`, the first run succeeds, and a
second run on the resulting 5120-byte file also succeeds (it sees
`left = 0`, appends nothing, and the signature check passes again). -/
theorem stamp_second_run_succeeds :
    (stamp sigFile).result = .ok () ∧
    (stamp ((stamp sigFile).fileAfter)).result = .ok () := by
  have hfull : (pad sigFile).length = numblocks * blockSize :=
    pad_length sigFile (by rw [sigFile_length, numblocks_mul_blockSize]; norm_num)
  have hpp : pad (pad sigFile) = pad sigFile := pad_of_full _ hfull
  have hsecond : stamp (pad sigFile) = ⟨pad sigFile, .ok ()⟩ := by
    have := stamp_ok_of_sig (pad sigFile) (le_of_eq hfull)
      (by rw [hpp]; exact pad_sigFile_getD_510)
      (by rw [hpp]; exact pad_sigFile_getD_511)
    rw [hpp] at this
    exact this
  rw [stamp_sigFile]
  exact ⟨rfl, by rw [hsecond]⟩

/-- C5 amended: stamp.py IS idempotent past a successful run — if a run
terminates successfully, running it again on the resulting file succeeds
and leaves the file unchanged. -/
theorem stamp_idempotent_after_success (file : List Nat)
    (h : (stamp file).result = .ok ()) :
    stamp ((stamp file).fileAfter) = ⟨(stamp file).fileAfter, .ok ()⟩ := by
  have hle : file.length ≤ numblocks * blockSize := by
    by_contra hgt
    push_neg at hgt
    have h1 : (((numblocks * blockSize : Nat)) : Int) - (file.length : Int) < 0 := by
      omega
    unfold stamp at h
    rw [if_pos h1] at h
    exact absurd h (by simp)
  rw [stamp_of_le file hle] at h ⊢
  by_cases hc : (pad file).getD 510 0 ≠ 0x55 ∨ (pad file).getD 511 0 ≠ 0xaa
  · rw [if_pos hc] at h
    exact absurd h (by simp)
  · rw [if_neg hc]
    push_neg at hc
    show stamp (pad file) = ⟨pad file, .ok ()⟩
    have hfull : (pad file).length = numblocks * blockSize := pad_length file hle
    have hpp : pad (pad file) = pad file := pad_of_full _ hfull
    have := stamp_ok_of_sig (pad file) (le_of_eq hfull)
      (by rw [hpp]; exact hc.1) (by rw [hpp]; exact hc.2)
    rw [hpp] at this
    exact this

/-- Witness for the amended C5 at the signed boot sector `sigFile`. -/
theorem stamp_idempotent_after_success_witness :
    (stamp sigFile).result = .ok () ∧
    stamp ((stamp sigFile).fileAfter) = ⟨(stamp sigFile).fileAfter, .ok ()⟩ :=
  ⟨by rw [stamp_sigFile], stamp_idempotent_after_success sigFile (by rw [stamp_sigFile])⟩

lemma xxdChunksAux_length (i : Nat) (data : List Nat) :
    (xxdChunksAux i data).length = data.length := by
  induction data generalizing i with
  | nil => rfl
  | cons b rest ih => simp [xxdChunksAux, ih]

lemma xxdChunksAux_getD (data : List Nat) (i j : Nat) (hj : j < data.length) :
    (xxdChunksAux i data).getD j "" = xxdEntryString (i + j) (data.getD j 0) := by
  induction data generalizing i j with
  | nil => simp at hj
  | cons b rest ih =>
    cases j with
    | zero => rfl
    | succ j' =>
      have hj' : j' < rest.length := by simpa using hj
      show (xxdChunksAux (i + 1) rest).getD j' "" = _
      rw [ih (i + 1) j' hj']
      have harith : i + 1 + j' = i + (j' + 1) := by omega
      rw [harith]
      rfl

lemma hexDigitChar_mem (n : Nat) (h : n < 16) : hexDigitChar n ∈ hexChars := by
  interval_cases n <;> decide

lemma getD_mem_of_lt (l : List Nat) (i : Nat) (h : i < l.length) : l.getD i 0 ∈ l := by
  rw [List.getD_eq_getElem l 0 h]
  exact List.getElem_mem h

/-- C2: for an input of `L` bytes, xxd.py's loop prints exactly `L` chunks,
each consisting of an optional separating space, a numeric entry of the
form `0x` followed by two lowercase hex digits, a comma, and an optional
newline; and the emitted length constant line states `L`. -/
theorem xxd_entry_count_and_format (fname : String) (data : List Nat)
    (hb : ∀ b ∈ data, b < 256) :
    (xxdChunks data).length = data.length ∧
    (∀ i, i < data.length → ∃ c1 c2, c1 ∈ hexChars ∧ c2 ∈ hexChars ∧
      (xxdChunks data).getD i "" =
        (if i % 12 == 0 then " " else "") ++ "0x" ++ String.mk [c1, c2] ++ "," ++
          (if (i + 1) % 12 == 0 then "\n" else "")) ∧
    xxdLenLine fname data =
      "unsigned int " ++ sanitizeName fname ++ "_len = " ++
        toString data.length ++ ";\n" := by
  refine ⟨xxdChunksAux_length 0 data, ?_, rfl⟩
  intro i hi
  set b := data.getD i 0 with hbdef
  have hmem : b ∈ data := getD_mem_of_lt data i hi
  have hblt : b < 256 := hb b hmem
  refine ⟨hexDigitChar (b / 16), hexDigitChar (b % 16), ?_, ?_, ?_⟩
  · exact hexDigitChar_mem _ (by omega)
  · exact hexDigitChar_mem _ (by omega)
  · show (xxdChunksAux 0 data).getD i "" = _
    rw [xxdChunksAux_getD data 0 i hi, Nat.zero_add]
    rfl

/-- Witness for C2 on the two-byte input `[0x00, 0xff]` with file name
`foo.bin`. -/
theorem xxd_entry_count_and_format_witness :
    (∀ b ∈ ([0x00, 0xff] : List Nat), b < 256) ∧
    (xxdChunks [0x00, 0xff]).length = ([0x00, 0xff] : List Nat).length :=
  ⟨by decide, (xxd_entry_count_and_format "foo.bin" [0x00, 0xff] (by decide)).1⟩

/-- C6 counterexample: on bytes `[0x00, 0x01, 0x02]` and file name
`foo.bin`, the emitted text is NOT the claimed comma-space-separated form
` 0x00, 0x01, 0x02,` — xxd.py prints no space between entries. -/
theorem xxd_example_not_claimed_text :
    xxdOutput "foo.bin" [0x00, 0x01, 0x02] ≠
      "unsigned char foo_bin[] = \x7b\n 0x00, 0x01, 0x02,\n\x7d;\nunsigned int foo_bin_len = 3;\n" := by
  decide

/-- C6 amended: on bytes `[0x00, 0x01, 0x02]` and file name `foo.bin` the
exact emitted text is `unsigned char foo_bin[] = \x7b` newline, the entry
line ` 0x00,0x01,0x02,` (a single leading space at the start of each
12-entry line, no space between entries), newline, `\x7d;`, and
`unsigned int foo_bin_len = 3;`. -/
theorem xxd_example_exact_text :
    xxdOutput "foo.bin" [0x00, 0x01, 0x02] =
      "unsigned char foo_bin[] = \x7b\n 0x00,0x01,0x02,\n\x7d;\nunsigned int foo_bin_len = 3;\n" := by
  decide

/-- C8: invoked with an argument count other than one, xxd.py exits with
code 1, writes the usage message to the standard error stream, and reads
no file. -/
theorem xxd_usage_error (args : List String) (readFile : String → List Nat)
    (h : args.length ≠ 1) :
    (xxdMain args readFile).exitCode = 1 ∧
    (xxdMain args readFile).stderrText = usageMsg ∧
    (xxdMain args readFile).filesRead = [] := by
  unfold xxdMain
  rw [if_pos h]
  exact ⟨rfl, rfl, rfl⟩

/-- Witness for C8 at the empty argument list. -/
theorem xxd_usage_error_witness :
    ([] : List String).length ≠ 1 ∧
    ((xxdMain [] fun _ => []).exitCode = 1 ∧
     (xxdMain [] fun _ => []).stderrText = usageMsg ∧
     (xxdMain [] fun _ => []).filesRead = []) :=
  ⟨by decide, xxd_usage_error [] (fun _ => []) (by decide)⟩

lemma pySplit_ne_nil (sep : Char) (l : List Char) : pySplit sep l ≠ [] := by
  cases l with
  | nil => simp [pySplit]
  | cons c rest =>
    simp only [pySplit]
    split <;> simp

lemma pySplit_length (sep : Char) (l : List Char) :
    (pySplit sep l).length = l.count sep + 1 := by
  induction l with
  | nil => rfl
  | cons c rest ih =>
    have hne := pySplit_ne_nil sep rest
    have hpos : 0 < (pySplit sep rest).length := List.length_pos.mpr hne
    simp only [pySplit]
    by_cases hc : c = sep
    · rw [if_pos hc]
      simp only [List.length_cons, List.count_cons, ih]
      rw [if_pos (by simp [hc])]
    · rw [if_neg hc]
      simp only [List.length_cons, List.length_tail, List.count_cons, ih]
      rw [if_neg (by simp [hc])]
      omega

lemma pySplit_singleton (sep : Char) (l x : List Char)
    (h : pySplit sep l = [x]) : l = x := by
  induction l generalizing x with
  | nil =>
    simp only [pySplit] at h
    simp at h
    exact h.symm
  | cons c rest ih =>
    rcases hrr : pySplit sep rest with _ | ⟨g, gs⟩
    · exact absurd hrr (pySplit_ne_nil sep rest)
    · simp only [pySplit, hrr] at h
      by_cases hc : c = sep
      · rw [if_pos hc] at h
        simp at h
      · rw [if_neg hc] at h
        simp only [List.headD_cons, List.tail_cons] at h
        obtain ⟨hx, hgs⟩ : c :: g = x ∧ gs = [] := by simpa using h
        subst hgs
        rw [← hx, ih g hrr]

lemma pySplit_pair (sep : Char) (l k v : List Char)
    (h : pySplit sep l = [k, v]) : l = k ++ sep :: v := by
  induction l generalizing k with
  | nil =>
    simp only [pySplit] at h
    simp at h
  | cons c rest ih =>
    rcases hrr : pySplit sep rest with _ | ⟨g, gs⟩
    · exact absurd hrr (pySplit_ne_nil sep rest)
    · simp only [pySplit, hrr] at h
      by_cases hc : c = sep
      · rw [if_pos hc] at h
        obtain ⟨hk, hg, hgs⟩ : [] = k ∧ g = v ∧ gs = [] := by simpa using h
        subst hgs
        rw [← hk, hc, List.nil_append]
        rw [hg] at hrr
        rw [pySplit_singleton sep rest v hrr]
      · rw [if_neg hc] at h
        simp only [List.headD_cons, List.tail_cons] at h
        obtain ⟨hk, hgs⟩ : c :: g = k ∧ gs = [v] := by simpa using h
        subst hgs
        have := ih g hrr
        rw [← hk, this]
        rfl

lemma parseLine_eq_none_iff (l : List Char) :
    parseLine l = none ↔ (pySplit ':' l).length ≠ 2 := by
  unfold parseLine
  rcases h : pySplit ':' l with _ | ⟨a, _ | ⟨b, _ | ⟨c, t⟩⟩⟩ <;> simp

lemma parseLine_none_iff_count (l : List Char) :
    parseLine l = none ↔ l.count ':' ≠ 1 := by
  rw [parseLine_eq_none_iff, pySplit_length]
  omega

lemma parseLine_pair (l k v : List Char) (h : pySplit ':' l = [k, v]) :
    parseLine l = some (k, v) := by
  unfold parseLine
  rw [h]

lemma parseAll_eq_none_iff (ls : List (List Char)) :
    parseAll ls = none ↔ ∃ l ∈ ls, parseLine l = none := by
  induction ls with
  | nil => simp [parseAll]
  | cons a rest ih =>
    simp only [parseAll]
    cases hpa : parseLine a with
    | none => simp [hpa]
    | some kv =>
      cases hrest : parseAll rest with
      | none =>
        simp only [hpa, hrest]
        constructor
        · intro _
          obtain ⟨l, hl, hn⟩ := ih.mp hrest
          exact ⟨l, List.mem_cons_of_mem a hl, hn⟩
        · intro _
          trivial
      | some m =>
        simp only [hpa, hrest]
        constructor
        · intro hcon
          exact absurd hcon (by simp)
        · rintro ⟨l, hl, hn⟩
          rcases List.mem_cons.mp hl with h1 | h2
          · rw [h1] at hn
            rw [hn] at hpa
            exact absurd hpa (by simp)
          · exact absurd (ih.mpr ⟨l, h2, hn⟩) (by rw [hrest]; simp)

lemma parseMeminfo_eq_none_iff (lines : List (List Char)) :
    parseMeminfo lines = none ↔ ∃ l ∈ lines, parseLine (pyStrip l) = none := by
  unfold parseMeminfo
  rw [parseAll_eq_none_iff]
  constructor
  · rintro ⟨l, hl, hn⟩
    obtain ⟨l0, hl0, rfl⟩ := List.mem_map.mp hl
    exact ⟨l0, hl0, hn⟩
  · rintro ⟨l0, hl0, hn⟩
    exact ⟨pyStrip l0, List.mem_map_of_mem _ hl0, hn⟩

/-- C4 counterexample: the line `a:b:c` contains a colon, yet the script
fails fatally on it — `split(':')` splits on every colon, so the two-item
tuple unpacking raises a `ValueError`. -/
theorem mem_colon_line_still_fatal :
    parseMeminfo ["MemTotal: 1 kB".toList, "a:b:c".toList] = none ∧
    ':' ∈ "a:b:c".toList := by
  decide

/-- C4 amended: each stripped line is split on EVERY colon, and the script
raises a fatal error if and only if some line does not contain exactly one
colon; a line with exactly one colon is parsed into the key/value record of
the text before and after that colon. -/
theorem mem_parse_error_iff (lines : List (List Char)) :
    (parseMeminfo lines = none ↔ ∃ l ∈ lines, (pyStrip l).count ':' ≠ 1) ∧
    (∀ l k v, pySplit ':' l = [k, v] →
      parseLine l = some (k, v) ∧ l = k ++ ':' :: v) := by
  constructor
  · rw [parseMeminfo_eq_none_iff]
    constructor
    · rintro ⟨l, hl, hn⟩
      exact ⟨l, hl, (parseLine_none_iff_count _).mp hn⟩
    · rintro ⟨l, hl, hn⟩
      exact ⟨l, hl, (parseLine_none_iff_count _).mpr hn⟩
  · intro l k v h
    exact ⟨parseLine_pair l k v h, pySplit_pair ':' l k v h⟩

/-- Witness for the amended C4: a colon-free line is fatal. -/
theorem mem_parse_error_iff_witness :
    parseMeminfo ["MemTotal: 1 kB".toList, "ab".toList] = none :=
  (mem_parse_error_iff ["MemTotal: 1 kB".toList, "ab".toList]).1.mpr
    ⟨"ab".toList, by decide, by decide⟩

/-- C7: for every parsed mapping the report is exactly six lines, one per
field of the fixed ordered list, each printed as `<field>: <value>`, with
the empty value when the field is absent. -/
theorem mem_report_fixed_six_lines (m : List (List Char × List Char)) :
    (memReport m).length = 6 ∧
    (∀ i, i < 6 → (memReport m).getD i [] =
      (memFields.getD i []) ++ [':', ' '] ++
        pyStrip ((dictGet m (memFields.getD i [])).getD [])) ∧
    (∀ f, dictGet m f = none → memLine m f = f ++ [':', ' ']) := by
  refine ⟨rfl, ?_, ?_⟩
  · intro i hi
    interval_cases i <;> rfl
  · intro f hf
    simp [memLine, hf, pyStrip]

/-- Witness for C7 at the empty mapping and the first field. -/
theorem mem_report_fixed_six_lines_witness :
    (memReport []).length = 6 ∧
    (memReport []).getD 0 [] =
      (memFields.getD 0 []) ++ [':', ' '] ++
        pyStrip ((dictGet [] (memFields.getD 0 [])).getD []) :=
  ⟨(mem_report_fixed_six_lines []).1,
   (mem_report_fixed_six_lines []).2.1 0 (by decide)⟩

end Biscuit
